import Mathlib

/-!
Verification of the kickeststats scoring and substitution engine
(`kickeststats/team.py`) in a shallow embedding.

Modelling conventions:
* Python floats (player points, thresholds) are modelled as exact rationals.
* Player ids (strings in the source) are modelled as naturals; per the data
  model an id is a unique identifier, so fixture results are assumed to hold
  at most one row per id where the pandas code requires a unique index.
* Dataframes (`Player.from_list_to_df`) are modelled as lists preserving
  order; the `Player` class itself is not part of the sources, so its record
  shape is modelled from the spec data model (id, position category, points,
  captain flag).
* The random captain pick (`DataFrame.sample(1)`) is modelled by an explicit
  `pick` argument selecting a roster index; a raising operation (sampling
  from an empty roster) is modelled as `none`.
-/

/-- Position categories of the data model. -/
inductive Position where
  | goalkeeper
  | defender
  | midfielder
  | forward
deriving DecidableEq, Repr, Fintype

/-- Player record. The source `Player` class is external to `team.py`; the
fields are the ones `team.py` reads from the dataframe columns
(`_id`, `position_name`, `points`, `captain`). -/
structure Player where
  _id : Nat
  position_name : Position
  points : ℚ
  captain : Bool
deriving DecidableEq, Repr

/-- Maximum number of substitutions, env default 5 (`MAX_SUBSTITUTIONS`). -/
def MAX_SUBSTITUTIONS : Nat := 5

/-- Goal threshold, env default 200 (`GOAL_THRESHOLD`). -/
def GOAL_THRESHOLD : ℚ := 200

/-- Goal gap, env default 20 (`GOAL_GAP`). -/
def GOAL_GAP : ℚ := 20

/-- The while loop of `points_to_goals`: while `points > threshold` increment
the goal count and the threshold. -/
def goalsLoop (points : ℚ) (threshold : ℚ) : Nat :=
  if points > threshold then goalsLoop points (threshold + GOAL_GAP) + 1 else 0
termination_by (Int.ceil ((points - threshold) / GOAL_GAP)).toNat
decreasing_by
  have hgap : (0:ℚ) < GOAL_GAP := by norm_num [GOAL_GAP]
  have h1 : (points - (threshold + GOAL_GAP)) / GOAL_GAP
      = (points - threshold) / GOAL_GAP - 1 := by
    field_simp
    ring
  have h2 : (0:ℚ) < (points - threshold) / GOAL_GAP := by
    apply div_pos _ hgap
    linarith
  have h3 : (1:ℤ) ≤ Int.ceil ((points - threshold) / GOAL_GAP) := by
    exact Int.ceil_pos.mpr h2
  rw [h1, Int.ceil_sub_one]
  omega

/-- `points_to_goals` from `team.py`: convert points to goals. -/
def points_to_goals (points : ℚ) : Nat :=
  goalsLoop points GOAL_THRESHOLD

/-- Fuel-indexed variant of the goal-conversion loop, modelling potential
nontermination explicitly: `none` means the fuel ran out. -/
def goalsFuel : Nat → ℚ → ℚ → Option Nat
  | 0, _, _ => none
  | fuel + 1, points, threshold =>
    if points > threshold then
      (goalsFuel fuel points (threshold + GOAL_GAP)).map (fun g => g + 1)
    else
      some 0

/-- Round a rational to the nearest integer, ties to even, modelling
`numpy.round` on exact values. -/
def roundHalfEven (x : ℚ) : ℤ :=
  let f : ℤ := ⌊x⌋
  let r : ℚ := x - (f : ℚ)
  if r < 1/2 then f
  else if 1/2 < r then f + 1
  else if f % 2 = 0 then f else f + 1

/-- Round to 2 decimal places, modelling `np.round(x, 2)`. -/
def round2 (x : ℚ) : ℚ := ((roundHalfEven (x * 100) : ℚ)) / 100

/-- Unfolding step of the goal-conversion loop when the threshold is
exceeded. -/
theorem goalsLoop_gt {points threshold : ℚ} (h : points > threshold) :
    goalsLoop points threshold = goalsLoop points (threshold + GOAL_GAP) + 1 := by
  rw [goalsLoop, if_pos h]

/-- Unfolding step of the goal-conversion loop when the threshold is not
exceeded. -/
theorem goalsLoop_le {points threshold : ℚ} (h : ¬ points > threshold) :
    goalsLoop points threshold = 0 := by
  rw [goalsLoop, if_neg h]

/-- Formation requirement vector. Modelled from the spec: the `LineUp`
classes behind `LINE_UP_FACTORY` are not part of the sources; per the spec a
formation is a named vector of per-category slot counts. -/
structure LineUp where
  goalkeepers : Nat
  defenders : Nat
  midfielders : Nat
  forwards : Nat
deriving DecidableEq, Repr

/-- Slot count of a formation for a position category (the
`getattr(self.line_up, ...)` lookup). -/
def LineUp.slot (lu : LineUp) : Position → Nat
  | .goalkeeper => lu.goalkeepers
  | .defender => lu.defenders
  | .midfielder => lu.midfielders
  | .forward => lu.forwards

/-- Modelled from the spec: `POSITION_NAMES_TO_ATTRIBUTES` (not part of the
sources) maps a position category name to the formation attribute name. -/
def POSITION_NAMES_TO_ATTRIBUTES : Position → String
  | .goalkeeper => "goalkeepers"
  | .defender => "defenders"
  | .midfielder => "midfielders"
  | .forward => "forwards"

/-- Modelled from the spec: `LINE_UP_FACTORY` (not part of the sources) maps
the supported formation identifiers to their requirement vectors. -/
def LINE_UP_FACTORY (line_up : String) : Option LineUp :=
  if line_up = "3-4-3" then some ⟨1, 3, 4, 3⟩
  else if line_up = "4-3-3" then some ⟨1, 4, 3, 3⟩
  else if line_up = "3-5-2" then some ⟨1, 3, 5, 2⟩
  else if line_up = "4-4-2" then some ⟨1, 4, 4, 2⟩
  else if line_up = "5-3-2" then some ⟨1, 5, 3, 2⟩
  else if line_up = "4-5-1" then some ⟨1, 4, 5, 1⟩
  else if line_up = "5-4-1" then some ⟨1, 5, 4, 1⟩
  else none

/-- Errors raised by `Team.__init__` (`UnsupportedLineUp`,
`InvalidTeamLineup`; the spec names them `UnsupportedFormationError` and
`InvalidRosterError`). -/
inductive TeamError where
  | unsupportedLineUp (line_up : String)
  | invalidTeamLineup (attr : String) (count : Nat) (line_up : String)
deriving DecidableEq, Repr

/-- Team: validated starting roster, ordered bench, resolved formation. -/
structure Team where
  players : List Player
  substitutes : List Player
  line_up : LineUp
deriving DecidableEq, Repr

/-- Position categories present in a roster, in the order pandas
`groupby("position_name")` yields its groups: sorted by the category name
("defender" < "forward" < "goalkeeper" < "midfielder"). -/
def groupKeys (roster : List Player) : List Position :=
  [Position.defender, Position.forward, Position.goalkeeper,
    Position.midfielder].filter
    (fun c => roster.any (fun p => decide (p.position_name = c)))

/-- Roster validation from `Team.__init__`: for every position category
present in the roster, its cardinality must equal the formation slot count;
the first mismatch (in group order) is returned. Categories absent from the
roster yield no group and are not checked. -/
def validateRoster (lu : LineUp) (line_up : String) (roster : List Player) :
    Option TeamError :=
  (groupKeys roster).findSome? (fun c =>
    let count := (roster.filter (fun p => decide (p.position_name = c))).length
    if lu.slot c ≠ count then
      some (.invalidTeamLineup (POSITION_NAMES_TO_ATTRIBUTES c) count line_up)
    else none)

/-- `Team.__init__`: resolve the line-up (raising `UnsupportedLineUp` for an
unknown identifier), then validate the roster group cardinalities. -/
def Team.mk? (players : List Player) (substitutes : List Player)
    (line_up : String) : Except TeamError Team :=
  match LINE_UP_FACTORY line_up with
  | none => .error (.unsupportedLineUp line_up)
  | some lu =>
    match validateRoster lu line_up players with
    | some e => .error e
    | none => .ok ⟨players, substitutes, lu⟩

/-- Captain resolution from `Team.points` (lines 93-97): the first
roster player flagged as captain, otherwise a random roster row
(`DataFrame.sample(1)`), modelled by the explicit index `pick`; sampling an
empty roster raises in pandas, modelled as `none`. -/
def resolveCaptain (roster : List Player) (pick : Nat) : Option Nat :=
  match roster.find? (fun p => p.captain) with
  | some p => some p._id
  | none => (roster.get? (pick % roster.length)).map (fun p => p._id)

/-- Playing players (lines 90-92, 98): fixture rows whose id is in the
roster, in fixture order, with the captain column recomputed as
`_id == captain_id`. -/
def playingPlayers (t : Team) (fixture : List Player) (cid : Nat) :
    List Player :=
  (fixture.filter
      (fun p => t.players.any (fun r => decide (r._id = p._id)))).map
    (fun p => { p with captain := decide (p._id = cid) })

/-- Eligible substitutes (lines 101-107): fixture rows with positive points
whose id is on the bench, reordered to bench priority order
(`reindex(self.substitutes["_id"]).dropna()`); bench ids without such a row
are dropped. Fixture results hold at most one row per id (the pandas
reindex requires a unique index). -/
def eligibleSubstitutes (bench : List Player) (fixture : List Player) :
    List Player :=
  bench.filterMap (fun b =>
    fixture.find? (fun p => decide (p._id = b._id) && decide (0 < p.points)))

/-- Mutable state of the substitution loop (lines 113-115):
`to_be_substituted_ids`, `substitutes_ids` and the captain-substitute
sentinel (`''` modelled as `none`). -/
structure SubState where
  toBeSub : List Nat
  subsIds : List Nat
  capSubId : Option Nat
deriving DecidableEq, Repr

/-- Substitute selection for one candidate (lines 118-126): the first
eligible substitute of the candidate's position category not used yet. -/
def chooseSub (substitutes : List Player) (used : List Nat)
    (cand : Player) : Option Player :=
  (substitutes.filter (fun q =>
    decide (q.position_name = cand.position_name) &&
      !(decide (q._id ∈ used)))).head?

/-- One iteration body of the substitution loop (lines 117-132). -/
def subStep (substitutes : List Player) (st : SubState) (cand : Player) :
    SubState :=
  match chooseSub substitutes st.subsIds cand with
  | none => st
  | some q =>
    { toBeSub := st.toBeSub ++ [cand._id]
      subsIds := st.subsIds ++ [q._id]
      capSubId := if cand.captain then some q._id else st.capSubId }

/-- The substitution loop (lines 116-135): walk the candidates, and break
once `len(to_be_substituted_ids) == MAX_SUBSTITUTIONS` (checked after every
candidate, successful or not). -/
def subLoop (substitutes : List Player) :
    List Player → SubState → SubState
  | [], st => st
  | cand :: rest, st =>
    if (subStep substitutes st cand).toBeSub.length == MAX_SUBSTITUTIONS
    then subStep substitutes st cand
    else subLoop substitutes rest (subStep substitutes st cand)

/-- The substitution loop started from the empty state, as in
`Team.points`. -/
def subResult (substitutes : List Player) (candidates : List Player) :
    SubState :=
  subLoop substitutes candidates ⟨[], [], none⟩

/-- Candidates for substitution (line 111): playing players with zero
points, in playing (fixture) order. -/
def candidatesFor (t : Team) (fixture : List Player) (cid : Nat) :
    List Player :=
  (playingPlayers t fixture cid).filter (fun p => decide (p.points = 0))

/-- The substitution-loop state reached in one scoring call. -/
def subResultOf (t : Team) (fixture : List Player) (cid : Nat) : SubState :=
  subResult (eligibleSubstitutes t.substitutes fixture)
    (candidatesFor t fixture cid)

/-- Final line-up (lines 109-142): if there is no eligible substitute the
playing players are kept unchanged; otherwise the substituted-out rows are
replaced by the used substitutes, and if a captain substitution occurred
the captain column is recomputed as `_id == captain_substitute_id`. -/
def finalLineup (t : Team) (fixture : List Player) (cid : Nat) :
    List Player :=
  let playing := playingPlayers t fixture cid
  let subs := eligibleSubstitutes t.substitutes fixture
  if subs.isEmpty then playing
  else
    let st := subResultOf t fixture cid
    let final :=
      playing.filter (fun p => !(decide (p._id ∈ st.toBeSub))) ++
        subs.filter (fun p => decide (p._id ∈ st.subsIds))
    match st.capSubId with
    | some c => final.map (fun p => { p with captain := decide (p._id = c) })
    | none => final

/-- Score aggregation (lines 144-150): home bonus plus each final player's
points, doubled for the captain, rounded to 2 decimals. -/
def pointsCore (t : Team) (fixture : List Player) (is_away : Bool)
    (cid : Nat) : ℚ :=
  round2 ((finalLineup t fixture cid).foldl
    (fun acc p => acc + (if p.captain then 2 * p.points else p.points))
    (if is_away then 0 else 6))

/-- `Team.points`: resolve the captain (possibly at random, via `pick`),
then score; `none` models the pandas raise on sampling an empty roster. -/
def Team.points (t : Team) (fixture : List Player) (is_away : Bool)
    (pick : Nat) : Option ℚ :=
  (resolveCaptain t.players pick).map (fun cid =>
    pointsCore t fixture is_away cid)

/-- The goal count returned by the loop is exactly the number of ladder
thresholds `t, t + gap, t + 2*gap, ...` exceeded in sequence. -/
theorem goalsLoop_count (p t : ℚ) :
    (∀ k : ℕ, k < goalsLoop p t → p > t + GOAL_GAP * k) ∧
      ¬ p > t + GOAL_GAP * (goalsLoop p t : ℕ) := by
  induction t using goalsLoop.induct p with
  | case1 t h ih =>
    rw [goalsLoop_gt h]
    obtain ⟨ih1, ih2⟩ := ih
    constructor
    · intro k hk
      match k with
      | 0 => simpa using h
      | j + 1 =>
        have hj : j < goalsLoop p (t + GOAL_GAP) := by omega
        have := ih1 j hj
        push_cast
        push_cast at this
        linarith
    · push_cast
      intro hcon
      push_cast at ih2
      exact ih2 (by linarith)
  | case2 t h =>
    rw [goalsLoop_le h]
    refine ⟨fun k hk => absurd hk (by omega), ?_⟩
    simpa using h

/-- Sequentially exceeding the first `n` ladder thresholds but not the
next one forces the loop to return exactly `n`. -/
theorem goalsLoop_count_unique (p t : ℚ) (n : ℕ)
    (h1 : ∀ k : ℕ, k < n → p > t + GOAL_GAP * k)
    (h2 : ¬ p > t + GOAL_GAP * n) : goalsLoop p t = n := by
  obtain ⟨g1, g2⟩ := goalsLoop_count p t
  rcases Nat.lt_trichotomy (goalsLoop p t) n with h | h | h
  · exact absurd (h1 _ h) g2
  · exact h
  · exact absurd (g1 _ h) h2

/-- C7: with the default constants, `points_to_goals` returns the count of
ladder thresholds 200, 220, 240, ... strictly exceeded in sequence; in
particular it maps 250 to 3 and any input at most 200 to 0. -/
theorem points_to_goals_ladder_count (p : ℚ) :
    ((∀ k : ℕ, k < points_to_goals p →
        p > GOAL_THRESHOLD + GOAL_GAP * k) ∧
      ¬ p > GOAL_THRESHOLD + GOAL_GAP * (points_to_goals p : ℕ)) ∧
    points_to_goals 250 = 3 ∧
    (p ≤ 200 → points_to_goals p = 0) := by
  refine ⟨goalsLoop_count p GOAL_THRESHOLD, ?_, fun hle => ?_⟩
  · rw [points_to_goals, GOAL_THRESHOLD,
      goalsLoop_gt (by norm_num), goalsLoop_gt (by norm_num [GOAL_GAP]),
      goalsLoop_gt (by norm_num [GOAL_GAP]),
      goalsLoop_le (by norm_num [GOAL_GAP])]
  · rw [points_to_goals, GOAL_THRESHOLD, goalsLoop_le (by simpa using hle)]

/-- C7 witness: the characterization applied at the concrete input 190. -/
theorem points_to_goals_ladder_count_witness : points_to_goals 190 = 0 :=
  (points_to_goals_ladder_count 190).2.2 (by norm_num)

/-- The fuel-indexed loop terminates with fuel one above the returned goal
count, yielding the value of the well-founded loop. -/
theorem goalsFuel_eq (p t : ℚ) :
    goalsFuel (goalsLoop p t + 1) p t = some (goalsLoop p t) := by
  induction t using goalsLoop.induct p with
  | case1 t h ih => rw [goalsLoop_gt h, goalsFuel, if_pos h, ih, Option.map_some']
  | case2 t h => rw [goalsLoop_le h, goalsFuel, if_neg h]

/-- C8: `points_to_goals` is total: for every non-negative input there is
enough fuel for the threshold loop to terminate (the threshold strictly
increases each iteration), and the result is the loop's value. -/
theorem points_to_goals_terminates (p : ℚ) (h : 0 ≤ p) :
    ∃ fuel : ℕ, goalsFuel fuel p GOAL_THRESHOLD = some (points_to_goals p) :=
  ⟨points_to_goals p + 1, goalsFuel_eq p GOAL_THRESHOLD⟩

/-- C8 witness: termination applied at the concrete input 250. -/
theorem points_to_goals_terminates_witness :
    ∃ fuel : ℕ, goalsFuel fuel 250 GOAL_THRESHOLD =
      some (points_to_goals 250) :=
  points_to_goals_terminates 250 (by norm_num)

/-- Folding the per-player weights starting from the bonus equals the bonus
plus the sum of the weights. -/
theorem foldl_weight_eq_sum (l : List Player) (b : ℚ) :
    l.foldl (fun acc p => acc + (if p.captain then 2 * p.points else p.points)) b
      = b + (l.map (fun p => if p.captain then 2 * p.points else p.points)).sum := by
  induction l generalizing b with
  | nil => simp
  | cons p rest ih => simp [List.foldl, ih]; ring

/-- C1: whenever the captain resolves (to `cid`), the returned value is the
home bonus (0 away, 6 home) plus the sum over the post-substitution final
line-up of each player's points, doubled exactly for carriers of the
(possibly transferred) captain flag, rounded to 2 decimal places. -/
theorem points_eq_bonus_add_weighted_sum (t : Team) (fixture : List Player)
    (is_away : Bool) (pick : Nat) (cid : Nat)
    (h : resolveCaptain t.players pick = some cid) :
    t.points fixture is_away pick =
      some (round2 ((if is_away then 0 else 6) +
        ((finalLineup t fixture cid).map
          (fun p => if p.captain then 2 * p.points else p.points)).sum)) := by
  rw [Team.points, h, Option.map_some', pointsCore, foldl_weight_eq_sum]

/-- Concrete team for the C1 witness: captain forward (id 1) and a second
forward (id 2), no bench, playing the 4-4-2 requirement vector. -/
def teamW1 : Team :=
  ⟨[⟨1, .forward, 0, true⟩, ⟨2, .forward, 0, false⟩], [], ⟨1, 4, 4, 2⟩⟩

/-- Concrete fixture for the C1 witness. -/
def fixtureW1 : List Player :=
  [⟨1, .forward, 10, false⟩, ⟨2, .forward, 3, false⟩]

/-- C1 witness: the aggregation formula applied to a concrete home fixture. -/
theorem points_eq_bonus_add_weighted_sum_witness :
    teamW1.points fixtureW1 false 0 =
      some (round2 ((if false then 0 else 6) +
        ((finalLineup teamW1 fixtureW1 1).map
          (fun p => if p.captain then 2 * p.points else p.points)).sum)) :=
  points_eq_bonus_add_weighted_sum teamW1 fixtureW1 false 0 1 (by decide)

/-- Number of players of a position category in a list. -/
def posCount (l : List Player) (c : Position) : Nat :=
  l.countP (fun q => decide (q.position_name = c))

/-- Number of eligible substitutes of a position category not yet used. -/
def eligCount (subs : List Player) (used : List Nat) (c : Position) : Nat :=
  subs.countP (fun q =>
    decide (q.position_name = c) && !(decide (q._id ∈ used)))

/-- With no substitute used yet, the eligible count is the position count. -/
theorem eligCount_nil (subs : List Player) (c : Position) :
    eligCount subs [] c = posCount subs c := by
  rw [eligCount, posCount]
  apply List.countP_congr
  intro q _
  simp

/-- A successful `chooseSub` returns a member of the substitutes of the
candidate's position category, not yet used, and no earlier substitute in
bench order is eligible. -/
theorem chooseSub_spec (subs : List Player) (used : List Nat)
    (cand : Player) (q : Player)
    (h : chooseSub subs used cand = some q) :
    q ∈ subs ∧ q.position_name = cand.position_name ∧ q._id ∉ used ∧
      ∃ l1 l2, subs = l1 ++ q :: l2 ∧
        ∀ r ∈ l1, ¬(r.position_name = cand.position_name ∧ r._id ∉ used) := by
  induction subs with
  | nil => simp [chooseSub] at h
  | cons s ss ih =>
    rw [chooseSub, List.filter_cons] at h
    by_cases hs : (decide (s.position_name = cand.position_name) &&
        !(decide (s._id ∈ used))) = true
    · rw [if_pos hs, List.head?_cons, Option.some_inj] at h
      subst h
      simp only [Bool.and_eq_true, decide_eq_true_eq, Bool.not_eq_eq_eq_not,
        Bool.not_true, decide_eq_false_iff_not] at hs
      exact ⟨List.mem_cons_self s ss, hs.1, hs.2,
        [], ss, rfl, by simp⟩
    · rw [if_neg hs] at h
      rw [chooseSub] at ih
      obtain ⟨hmem, hpos, hunused, l1, l2, heq, hearlier⟩ := ih h
      refine ⟨List.mem_cons_of_mem s hmem, hpos, hunused,
        s :: l1, l2, by rw [heq]; rfl, ?_⟩
      intro r hr
      rcases List.mem_cons.mp hr with hrs | hrl
      · subst hrs
        intro ⟨hp, hu⟩
        simp only [Bool.and_eq_true, decide_eq_true_eq, Bool.not_eq_eq_eq_not,
          Bool.not_true, decide_eq_false_iff_not] at hs
        exact hs ⟨hp, hu⟩
      · exact hearlier r hrl

/-- A positive eligible count makes `chooseSub` succeed. -/
theorem chooseSub_isSome (subs : List Player) (used : List Nat)
    (cand : Player) (h : 0 < eligCount subs used cand.position_name) :
    ∃ q, chooseSub subs used cand = some q := by
  rw [eligCount, List.countP_pos] at h
  obtain ⟨a, ha, hp⟩ := h
  rw [chooseSub]
  cases hf : (subs.filter (fun q =>
      decide (q.position_name = cand.position_name) &&
        !(decide (q._id ∈ used)))) with
  | nil =>
    rw [List.filter_eq_nil_iff] at hf
    exact absurd hp (by simpa using hf a ha)
  | cons x xs => exact ⟨x, rfl⟩

/-- A failed selection leaves the loop state unchanged. -/
theorem subStep_none {subs : List Player} {st : SubState} {cand : Player}
    (h : chooseSub subs st.subsIds cand = none) :
    subStep subs st cand = st := by
  rw [subStep, h]

/-- A successful selection appends the candidate and substitute ids and
records a captain transfer when the candidate is the captain. -/
theorem subStep_some {subs : List Player} {st : SubState} {cand q : Player}
    (h : chooseSub subs st.subsIds cand = some q) :
    subStep subs st cand =
      ⟨st.toBeSub ++ [cand._id], st.subsIds ++ [q._id],
        if cand.captain then some q._id else st.capSubId⟩ := by
  rw [subStep, h]

/-- The substitution loop never takes the substitution count beyond the
maximum, starting below it. -/
theorem subLoop_length_le (subs : List Player) :
    ∀ (cands : List Player) (st : SubState),
      st.toBeSub.length < MAX_SUBSTITUTIONS →
      (subLoop subs cands st).toBeSub.length ≤ MAX_SUBSTITUTIONS := by
  intro cands
  induction cands with
  | nil => intro st h; rw [subLoop]; omega
  | cons cand rest ih =>
    intro st h
    rw [subLoop]
    cases hc : chooseSub subs st.subsIds cand with
    | none =>
      rw [subStep_none hc]
      have hne : (st.toBeSub.length == MAX_SUBSTITUTIONS) = false := by
        simp only [beq_eq_false_iff_ne, ne_eq]
        omega
      rw [hne]
      simp only [Bool.false_eq_true, if_false]
      exact ih st h
    | some q =>
      rw [subStep_some hc]
      simp only [List.length_append, List.length_singleton]
      by_cases heq : st.toBeSub.length + 1 = MAX_SUBSTITUTIONS
      · simp [heq]
      · have hne : (st.toBeSub.length + 1 == MAX_SUBSTITUTIONS) = false := by
          simp only [beq_eq_false_iff_ne, ne_eq]
          omega
        rw [hne]
        simp only [Bool.false_eq_true, if_false]
        exact ih _ (by simp only [List.length_append, List.length_singleton]; omega)

/-- A candidate for which no substitute is found consumes no budget: the
loop continues on the remaining candidates with the same state. -/
theorem subLoop_skip (subs : List Player) (cand : Player)
    (rest : List Player) (st : SubState)
    (hnone : chooseSub subs st.subsIds cand = none)
    (hlen : st.toBeSub.length ≠ MAX_SUBSTITUTIONS) :
    subLoop subs (cand :: rest) st = subLoop subs rest st := by
  rw [subLoop, subStep_none hnone]
  have hne : (st.toBeSub.length == MAX_SUBSTITUTIONS) = false := by
    simp only [beq_eq_false_iff_ne, ne_eq]
    exact hlen
  rw [hne]
  simp

/-- Marking one more substitute (of id `q._id`, present exactly once among
the substitutes) as used lowers the eligible count of its position category
by one and leaves the other categories unchanged. -/
theorem eligCount_snoc (subs : List Player) (used : List Nat) (q : Player)
    (hnodup : (subs.map Player._id).Nodup) (hq : q ∈ subs)
    (hqu : q._id ∉ used) :
    ∀ c : Position,
      eligCount subs (used ++ [q._id]) c +
        (if q.position_name = c then 1 else 0) = eligCount subs used c := by
  induction subs with
  | nil => exact absurd hq (List.not_mem_nil q)
  | cons s ss ih =>
    intro c
    rw [List.map_cons, List.nodup_cons] at hnodup
    obtain ⟨hsid, hnodup2⟩ := hnodup
    rw [eligCount, eligCount, List.countP_cons, List.countP_cons]
    rcases List.mem_cons.mp hq with hqs | hqss
    · subst hqs
      have htail : List.countP (fun r =>
          decide (r.position_name = c) &&
            !(decide (r._id ∈ used ++ [q._id]))) ss =
          List.countP (fun r =>
            decide (r.position_name = c) && !(decide (r._id ∈ used))) ss := by
        apply List.countP_congr
        intro r hr
        have hne : r._id ≠ q._id := fun he =>
          hsid (he ▸ List.mem_map_of_mem Player._id hr)
        simp [List.mem_append, hne]
      rw [htail]
      by_cases hc : q.position_name = c <;> simp [hc, hqu] <;> omega
    · have hne : s._id ≠ q._id := fun he =>
        hsid (he ▸ List.mem_map_of_mem Player._id hqss)
      have hhead : (decide (s.position_name = c) &&
          !(decide (s._id ∈ used ++ [q._id]))) =
          (decide (s.position_name = c) && !(decide (s._id ∈ used))) := by
        simp [List.mem_append, hne]
      rw [hhead]
      have := ih hnodup2 hqss c
      rw [eligCount, eligCount] at this
      omega

/-- With one distinct substitute available per zero-scoring candidate of
each position category, every loop iteration substitutes, so the loop runs
until it hits the break at exactly the maximum. -/
theorem subLoop_exact (subs : List Player)
    (hnodup : (subs.map Player._id).Nodup) :
    ∀ (cands : List Player) (st : SubState),
      st.toBeSub.length < MAX_SUBSTITUTIONS →
      MAX_SUBSTITUTIONS ≤ st.toBeSub.length + cands.length →
      (∀ c : Position, posCount cands c ≤ eligCount subs st.subsIds c) →
      (subLoop subs cands st).toBeSub.length = MAX_SUBSTITUTIONS := by
  intro cands
  induction cands with
  | nil =>
    intro st h1 h2 _
    rw [List.length_nil] at h2
    omega
  | cons cand rest ih =>
    intro st h1 h2 h3
    have hpos : 0 < eligCount subs st.subsIds cand.position_name := by
      have hha := h3 cand.position_name
      have hcc : 0 < posCount (cand :: rest) cand.position_name := by
        rw [posCount, List.countP_cons]
        simp
      omega
    obtain ⟨q, hq⟩ := chooseSub_isSome subs st.subsIds cand hpos
    obtain ⟨hqmem, hqpos, hqunused, _⟩ := chooseSub_spec subs st.subsIds cand q hq
    rw [subLoop, subStep_some hq]
    simp only [List.length_append, List.length_singleton]
    by_cases heq : st.toBeSub.length + 1 = MAX_SUBSTITUTIONS
    · simp [heq]
    · have hne : (st.toBeSub.length + 1 == MAX_SUBSTITUTIONS) = false := by
        simp only [beq_eq_false_iff_ne, ne_eq]
        exact heq
      rw [hne]
      simp only [Bool.false_eq_true, if_false]
      apply ih
      · simp only [List.length_append, List.length_singleton]
        omega
      · simp only [List.length_append, List.length_singleton]
        rw [List.length_cons] at h2
        omega
      · intro c
        have hdec := eligCount_snoc subs st.subsIds q hnodup hqmem hqunused c
        have hcands := h3 c
        rw [posCount, List.countP_cons] at hcands
        show posCount rest c ≤ eligCount subs (st.subsIds ++ [q._id]) c
        rw [posCount]
        by_cases hc : cand.position_name = c
        · have hqc : q.position_name = c := hqpos.trans hc
          rw [if_pos hqc] at hdec
          have h5 : (decide (cand.position_name = c)) = true := by simp [hc]
          rw [h5, if_pos rfl] at hcands
          omega
        · have hqc : ¬ q.position_name = c := fun hcon =>
            hc (hqpos.symm.trans hcon)
          rw [if_neg hqc] at hdec
          have h5 : (decide (cand.position_name = c)) = false := by simp [hc]
          rw [h5] at hcands
          simp only [Bool.false_eq_true, if_false] at hcands
          omega

/-- C2: in one scoring call the number of successful substitutions never
exceeds `MAX_SUBSTITUTIONS`; a zero-scoring candidate for which no
same-category substitute is found does not consume the budget (the loop
proceeds unchanged); and for more than `MAX_SUBSTITUTIONS` candidates with
enough eligible same-position substitutes, exactly `MAX_SUBSTITUTIONS`
substitutions occur. -/
theorem substitution_budget :
    (∀ (subs cands : List Player),
      (subResult subs cands).toBeSub.length ≤ MAX_SUBSTITUTIONS) ∧
    (∀ (subs : List Player) (cand : Player) (rest : List Player)
        (st : SubState),
      chooseSub subs st.subsIds cand = none →
      st.toBeSub.length ≠ MAX_SUBSTITUTIONS →
      subLoop subs (cand :: rest) st = subLoop subs rest st) ∧
    (∀ (subs cands : List Player),
      (subs.map Player._id).Nodup →
      (∀ c : Position, posCount cands c ≤ posCount subs c) →
      MAX_SUBSTITUTIONS < cands.length →
      (subResult subs cands).toBeSub.length = MAX_SUBSTITUTIONS) := by
  refine ⟨?_, subLoop_skip, ?_⟩
  · intro subs cands
    exact subLoop_length_le subs cands ⟨[], [], none⟩ (by decide)
  · intro subs cands hnodup henough hlen
    rw [subResult]
    apply subLoop_exact subs hnodup cands ⟨[], [], none⟩ (by decide)
    · simp only [List.length_nil]
      omega
    · intro c
      rw [eligCount_nil]
      exact henough c

/-- Six zero-scoring forward candidates for the C2 witness. -/
def candsW2 : List Player :=
  [⟨1, .forward, 0, false⟩, ⟨2, .forward, 0, false⟩, ⟨3, .forward, 0, false⟩,
   ⟨4, .forward, 0, false⟩, ⟨5, .forward, 0, false⟩, ⟨6, .forward, 0, false⟩]

/-- Six eligible forward substitutes for the C2 witness. -/
def subsW2 : List Player :=
  [⟨11, .forward, 1, false⟩, ⟨12, .forward, 1, false⟩,
   ⟨13, .forward, 1, false⟩, ⟨14, .forward, 1, false⟩,
   ⟨15, .forward, 1, false⟩, ⟨16, .forward, 1, false⟩]

/-- C2 witness: the budget behaviour on concrete inputs: six candidates and
six substitutes give exactly five substitutions; a goalkeeper candidate
with no goalkeeper substitute is skipped without consuming budget. -/
theorem substitution_budget_witness :
    (subResult subsW2 candsW2).toBeSub.length = MAX_SUBSTITUTIONS ∧
    (subResult subsW2 candsW2).toBeSub.length ≤ MAX_SUBSTITUTIONS ∧
    subLoop subsW2 [⟨7, .goalkeeper, 0, false⟩] ⟨[], [], none⟩ =
      subLoop subsW2 [] ⟨[], [], none⟩ :=
  ⟨substitution_budget.2.2 subsW2 candsW2 (by decide) (by decide) (by decide),
   substitution_budget.1 subsW2 candsW2,
   substitution_budget.2.1 subsW2 ⟨7, .goalkeeper, 0, false⟩ [] ⟨[], [], none⟩
     (by decide) (by decide)⟩

/-- Propositional form of the loop unfolding on a non-empty candidate
list. -/
theorem subLoop_cons_eq (subs : List Player) (cand : Player)
    (rest : List Player) (st : SubState) :
    subLoop subs (cand :: rest) st =
      if (subStep subs st cand).toBeSub.length = MAX_SUBSTITUTIONS
      then subStep subs st cand
      else subLoop subs rest (subStep subs st cand) := by
  rw [subLoop]
  by_cases hb : (subStep subs st cand).toBeSub.length = MAX_SUBSTITUTIONS
  · have hbeq : ((subStep subs st cand).toBeSub.length ==
        MAX_SUBSTITUTIONS) = true := beq_iff_eq.mpr hb
    rw [hbeq, if_pos hb]
    simp
  · have hbeq : ((subStep subs st cand).toBeSub.length ==
        MAX_SUBSTITUTIONS) = false := by
      simp only [beq_eq_false_iff_ne, ne_eq]
      exact hb
    rw [hbeq, if_neg hb]
    simp

/-- The loop preserves distinctness of the used-substitute ids. -/
theorem subLoop_nodup (subs : List Player) :
    ∀ (cands : List Player) (st : SubState), st.subsIds.Nodup →
      (subLoop subs cands st).subsIds.Nodup := by
  intro cands
  induction cands with
  | nil => intro st h; rw [subLoop]; exact h
  | cons cand rest ih =>
    intro st h
    rw [subLoop_cons_eq]
    have hnd : ((subStep subs st cand).subsIds).Nodup := by
      cases hc : chooseSub subs st.subsIds cand with
      | none => rw [subStep_none hc]; exact h
      | some q =>
        obtain ⟨_, _, hqu, _⟩ := chooseSub_spec subs st.subsIds cand q hc
        rw [subStep_some hc]
        simp [List.nodup_append, h, hqu]
    by_cases hb : (subStep subs st cand).toBeSub.length = MAX_SUBSTITUTIONS
    · rw [if_pos hb]
      exact hnd
    · rw [if_neg hb]
      exact ih _ hnd

/-- C3: a successful selection picks a substitute of the candidate's
position category that is not yet used and is preceded in bench order by no
other eligible substitute; and across one scoring call the used substitutes
are pairwise distinct (no substitute is ever chosen twice). -/
theorem bench_priority_no_reuse :
    (∀ (subs : List Player) (used : List Nat) (cand q : Player),
      chooseSub subs used cand = some q →
      q.position_name = cand.position_name ∧ q._id ∉ used ∧
        ∃ l1 l2, subs = l1 ++ q :: l2 ∧
          ∀ r ∈ l1, ¬(r.position_name = cand.position_name ∧
            r._id ∉ used)) ∧
    (∀ (subs cands : List Player), (subResult subs cands).subsIds.Nodup) := by
  constructor
  · intro subs used cand q h
    obtain ⟨_, h2, h3, h4⟩ := chooseSub_spec subs used cand q h
    exact ⟨h2, h3, h4⟩
  · intro subs cands
    rw [subResult]
    exact subLoop_nodup subs cands ⟨[], [], none⟩ List.nodup_nil

/-- Candidate player for the C3 witness. -/
def candW3 : Player := ⟨1, .forward, 0, false⟩

/-- First bench substitute for the C3 witness. -/
def subW3 : Player := ⟨11, .forward, 1, false⟩

/-- Bench for the C3 witness: two eligible forwards in priority order. -/
def subsW3 : List Player := [subW3, ⟨12, .forward, 1, false⟩]

/-- C3 witness: on a two-forward bench the earlier forward is selected, and
no earlier eligible substitute precedes it. -/
theorem bench_priority_no_reuse_witness :
    subW3.position_name = candW3.position_name ∧
      subW3._id ∉ ([] : List Nat) ∧
      ∃ l1 l2, subsW3 = l1 ++ subW3 :: l2 ∧
        ∀ r ∈ l1, ¬(r.position_name = candW3.position_name ∧
          r._id ∉ ([] : List Nat)) :=
  bench_priority_no_reuse.1 subsW3 [] candW3 subW3 (by decide)

/-- A one-goalkeeper roster: defender, midfielder and forward categories are
absent although 4-4-2 requires 4, 4 and 2 of them. -/
def rosterW6 : List Player := [⟨1, .goalkeeper, 0, false⟩]

/-- C6 (failing input): the constructor only checks categories that occur in
the roster, so a roster with category counts that do not match the
formation (all of defenders, midfielders and forwards are missing) is
accepted without any error. -/
theorem team_mk_accepts_missing_category :
    Team.mk? rosterW6 [] "4-4-2" = .ok ⟨rosterW6, [], ⟨1, 4, 4, 2⟩⟩ := rfl

/-- The empty-roster team that the constructor accepts. -/
def teamW9 : Team := ⟨[], [], ⟨1, 4, 4, 2⟩⟩

/-- C9 (counterexample): the constructor accepts an empty roster (no group
is ever checked), yet scoring it raises: with no captain flagged,
`DataFrame.sample(1)` on the empty roster fails, modelled as `none`. -/
theorem mk_empty_roster_scores_none :
    Team.mk? [] [] "4-4-2" = .ok teamW9 ∧
      teamW9.points [] true 0 = none :=
  ⟨rfl, rfl⟩

/-- C9 (amended): scoring never raises for any team with a non-empty
roster, over every bench, fixture result (including the empty one),
home/away flag and random captain pick. -/
theorem points_total_of_nonempty_roster (t : Team) (fixture : List Player)
    (is_away : Bool) (pick : Nat) (h : t.players ≠ []) :
    (t.points fixture is_away pick).isSome = true := by
  rw [Team.points, resolveCaptain]
  cases hf : t.players.find? (fun p => p.captain) with
  | some p => simp
  | none =>
    have hlen : 0 < t.players.length := List.length_pos.mpr h
    have hlt : pick % t.players.length < t.players.length :=
      Nat.mod_lt _ hlen
    rw [List.get?_eq_get hlt]
    simp

/-- C9 witness: totality applied to a concrete captainless one-player team
on the empty fixture. -/
theorem points_total_of_nonempty_roster_witness :
    (Team.points ⟨[⟨1, .goalkeeper, 0, false⟩], [], ⟨1, 4, 4, 2⟩⟩ [] true 0).isSome
      = true :=
  points_total_of_nonempty_roster _ [] true 0 (by decide)

/-- C5 (amended): the zero-scoring candidates are walked in
fixture-statistics order: the candidate list is exactly the fixture rows
that belong to the roster and have zero points, in fixture order (a
sublist of the captain-tagged fixture), not in roster order. -/
theorem candidates_in_fixture_order (t : Team) (fixture : List Player)
    (cid : Nat) :
    (candidatesFor t fixture cid).map Player._id =
      ((fixture.filter (fun p =>
        t.players.any (fun r => decide (r._id = p._id)) &&
          decide (p.points = 0))).map Player._id) ∧
    List.Sublist (candidatesFor t fixture cid)
      (fixture.map (fun p => { p with captain := decide (p._id = cid) })) := by
  constructor
  · rw [candidatesFor, playingPlayers]
    induction fixture with
    | nil => rfl
    | cons p rest ih =>
      by_cases h1 : (t.players.any (fun r => decide (r._id = p._id))) = true <;>
        by_cases h2 : (decide (p.points = (0:ℚ))) = true <;>
          simp [List.filter_cons, h1, h2, ih]
  · exact (List.filter_sublist _).trans
      ((List.filter_sublist fixture).map _)

/-- Stated from the spec wording for C5 (refinement comparison): the
zero-scoring candidates in roster order, i.e. the roster players that occur
in the fixture with zero points, listed in the order they appear in the
starting roster. -/
def rosterOrderCandidateIds (t : Team) (fixture : List Player) : List Nat :=
  (t.players.filter (fun r => fixture.any (fun p =>
    decide (p._id = r._id) && decide (p.points = 0)))).map Player._id

/-- Roster for the C5 counterexample: captain forward id 1 before forward
id 2. -/
def teamW5 : Team :=
  ⟨[⟨1, .forward, 0, true⟩, ⟨2, .forward, 0, false⟩], [], ⟨1, 4, 4, 2⟩⟩

/-- Fixture for the C5 counterexample: the same two forwards, zero points,
listed in the opposite order. -/
def fixtureW5 : List Player :=
  [⟨2, .forward, 0, false⟩, ⟨1, .forward, 0, false⟩]

/-- C5 (counterexample): with the resolved captain id 1, the candidate walk
order is the fixture order [2, 1], not the roster order [1, 2]. -/
theorem candidates_not_roster_order :
    resolveCaptain teamW5.players 0 = some 1 ∧
      (candidatesFor teamW5 fixtureW5 1).map Player._id ≠
        rosterOrderCandidateIds teamW5 fixtureW5 :=
  ⟨rfl, by decide⟩

/-- One step never removes ids from the used-substitute list. -/
theorem subStep_subsIds_mono {subs : List Player} {st : SubState}
    {cand : Player} {x : Nat} (h : x ∈ st.subsIds) :
    x ∈ (subStep subs st cand).subsIds := by
  cases hc : chooseSub subs st.subsIds cand with
  | none => rw [subStep_none hc]; exact h
  | some q => rw [subStep_some hc]; exact List.mem_append_left _ h

/-- Any id used after one step was used before or identifies a member of
the substitutes. -/
theorem subStep_subsIds_from {subs : List Player} {st : SubState}
    {cand : Player} {x : Nat} (h : x ∈ (subStep subs st cand).subsIds) :
    x ∈ st.subsIds ∨ ∃ q ∈ subs, q._id = x := by
  cases hc : chooseSub subs st.subsIds cand with
  | none => rw [subStep_none hc] at h; exact Or.inl h
  | some q =>
    obtain ⟨hqmem, _, _, _⟩ := chooseSub_spec subs st.subsIds cand q hc
    rw [subStep_some hc] at h
    rcases List.mem_append.mp h with h1 | h1
    · exact Or.inl h1
    · exact Or.inr ⟨q, hqmem, (List.mem_singleton.mp h1).symm⟩

/-- A captain transfer recorded by one step is either inherited or refers
to the substitute just used. -/
theorem subStep_cap_from {subs : List Player} {st : SubState}
    {cand : Player} {c : Nat}
    (h : (subStep subs st cand).capSubId = some c) :
    st.capSubId = some c ∨ c ∈ (subStep subs st cand).subsIds := by
  cases hc : chooseSub subs st.subsIds cand with
  | none => rw [subStep_none hc] at h; exact Or.inl h
  | some q =>
    rw [subStep_some hc] at h ⊢
    by_cases hcap : cand.captain = true
    · rw [if_pos hcap] at h
      right
      rw [Option.some_inj] at h
      exact List.mem_append_right _ (List.mem_singleton.mpr h.symm)
    · rw [if_neg hcap] at h
      exact Or.inl h

/-- A candidate that is not the captain leaves the transfer record of one
step unchanged. -/
theorem subStep_cap_of_not_captain {subs : List Player} {st : SubState}
    {cand : Player} (hcap : cand.captain = false) :
    (subStep subs st cand).capSubId = st.capSubId := by
  cases hc : chooseSub subs st.subsIds cand with
  | none => rw [subStep_none hc]
  | some q => rw [subStep_some hc]; simp [hcap]

/-- The loop never removes ids from the used-substitute list. -/
theorem subLoop_subsIds_mono (subs : List Player) :
    ∀ (cands : List Player) (st : SubState) (x : Nat), x ∈ st.subsIds →
      x ∈ (subLoop subs cands st).subsIds := by
  intro cands
  induction cands with
  | nil => intro st x h; rw [subLoop]; exact h
  | cons cand rest ih =>
    intro st x h
    rw [subLoop_cons_eq]
    by_cases hb : (subStep subs st cand).toBeSub.length = MAX_SUBSTITUTIONS
    · rw [if_pos hb]; exact subStep_subsIds_mono h
    · rw [if_neg hb]; exact ih _ x (subStep_subsIds_mono h)

/-- Any id used by the loop was used initially or identifies a member of
the substitutes. -/
theorem subLoop_subsIds_from (subs : List Player) :
    ∀ (cands : List Player) (st : SubState) (x : Nat),
      x ∈ (subLoop subs cands st).subsIds →
      x ∈ st.subsIds ∨ ∃ q ∈ subs, q._id = x := by
  intro cands
  induction cands with
  | nil => intro st x h; rw [subLoop] at h; exact Or.inl h
  | cons cand rest ih =>
    intro st x h
    rw [subLoop_cons_eq] at h
    by_cases hb : (subStep subs st cand).toBeSub.length = MAX_SUBSTITUTIONS
    · rw [if_pos hb] at h; exact subStep_subsIds_from h
    · rw [if_neg hb] at h
      rcases ih _ x h with h1 | h1
      · exact subStep_subsIds_from h1
      · exact Or.inr h1

/-- A captain transfer recorded by the loop was recorded initially or
refers to one of the used substitutes. -/
theorem subLoop_cap_from (subs : List Player) :
    ∀ (cands : List Player) (st : SubState) (c : Nat),
      (subLoop subs cands st).capSubId = some c →
      st.capSubId = some c ∨ c ∈ (subLoop subs cands st).subsIds := by
  intro cands
  induction cands with
  | nil => intro st c h; rw [subLoop] at h ⊢; exact Or.inl h
  | cons cand rest ih =>
    intro st c h
    rw [subLoop_cons_eq] at h ⊢
    by_cases hb : (subStep subs st cand).toBeSub.length = MAX_SUBSTITUTIONS
    · rw [if_pos hb] at h ⊢; exact subStep_cap_from h
    · rw [if_neg hb] at h ⊢
      rcases ih _ c h with h1 | h1
      · rcases subStep_cap_from h1 with h2 | h2
        · exact Or.inl h2
        · exact Or.inr (subLoop_subsIds_mono subs rest _ c h2)
      · exact Or.inr h1

/-- If no candidate is the captain, the loop records no captain transfer. -/
theorem subLoop_cap_none (subs : List Player) :
    ∀ (cands : List Player) (st : SubState),
      (∀ cand ∈ cands, cand.captain = false) →
      (subLoop subs cands st).capSubId = st.capSubId := by
  intro cands
  induction cands with
  | nil => intro st _; rw [subLoop]
  | cons cand rest ih =>
    intro st hcands
    have hcap : cand.captain = false := hcands cand (List.mem_cons_self cand rest)
    rw [subLoop_cons_eq]
    by_cases hb : (subStep subs st cand).toBeSub.length = MAX_SUBSTITUTIONS
    · rw [if_pos hb]; exact subStep_cap_of_not_captain hcap
    · rw [if_neg hb]
      rw [ih _ (fun x hx => hcands x (List.mem_cons_of_mem cand hx))]
      exact subStep_cap_of_not_captain hcap

/-- Members of the eligible substitutes are fixture rows with positive
points whose id is a bench id. -/
theorem eligibleSubstitutes_mem {bench fixture : List Player} {p : Player}
    (h : p ∈ eligibleSubstitutes bench fixture) :
    p ∈ fixture ∧ 0 < p.points ∧ ∃ b ∈ bench, p._id = b._id := by
  rw [eligibleSubstitutes] at h
  obtain ⟨b, hb, hf⟩ := List.mem_filterMap.mp h
  have hmem : p ∈ fixture := List.mem_of_find?_eq_some hf
  have hpred := List.find?_some hf
  simp only [Bool.and_eq_true, decide_eq_true_eq] at hpred
  exact ⟨hmem, hpred.2, b, hb, hpred.1⟩

/-- The captain flag of every playing player is the comparison of its id
with the resolved captain id, and every playing player is a captain-tagged
fixture row. -/
theorem mem_playingPlayers {t : Team} {fixture : List Player} {cid : Nat}
    {p : Player} (h : p ∈ playingPlayers t fixture cid) :
    p.captain = decide (p._id = cid) ∧
      ∃ x ∈ fixture, p = { x with captain := decide (x._id = cid) } := by
  rw [playingPlayers] at h
  obtain ⟨x, hx, rfl⟩ := List.mem_map.mp h
  exact ⟨rfl, x, List.mem_of_mem_filter hx, rfl⟩

/-- With an empty substitutes pool the loop does nothing. -/
theorem subResult_nil (cands : List Player) :
    subResult [] cands = ⟨[], [], none⟩ := by
  rw [subResult]
  induction cands with
  | nil => rfl
  | cons cand rest ih =>
    rw [subLoop_cons_eq]
    have hstep : subStep [] (⟨[], [], none⟩ : SubState) cand =
        ⟨[], [], none⟩ := subStep_none rfl
    rw [hstep, if_neg (by decide)]
    exact ih

/-- With no eligible substitute the final line-up is the playing list
unchanged. -/
theorem finalLineup_of_empty {t : Team} {fixture : List Player} {cid : Nat}
    (h : (eligibleSubstitutes t.substitutes fixture).isEmpty = true) :
    finalLineup t fixture cid = playingPlayers t fixture cid := by
  simp only [finalLineup]
  rw [if_pos h]

/-- With a captain substitution recorded, the final line-up is the
post-substitution concatenation with the captain column recomputed. -/
theorem finalLineup_of_cap {t : Team} {fixture : List Player} {cid : Nat}
    {c : Nat}
    (hne : (eligibleSubstitutes t.substitutes fixture).isEmpty = false)
    (hcap : (subResultOf t fixture cid).capSubId = some c) :
    finalLineup t fixture cid =
      ((playingPlayers t fixture cid).filter
          (fun p => !(decide (p._id ∈ (subResultOf t fixture cid).toBeSub))) ++
        (eligibleSubstitutes t.substitutes fixture).filter
          (fun p => decide (p._id ∈ (subResultOf t fixture cid).subsIds))).map
        (fun p => { p with captain := decide (p._id = c) }) := by
  simp only [finalLineup]
  rw [if_neg (by simp [hne]), hcap]

/-- With no captain substitution recorded, the final line-up is the
post-substitution concatenation with the flags untouched. -/
theorem finalLineup_of_nocap {t : Team} {fixture : List Player} {cid : Nat}
    (hne : (eligibleSubstitutes t.substitutes fixture).isEmpty = false)
    (hnone : (subResultOf t fixture cid).capSubId = none) :
    finalLineup t fixture cid =
      (playingPlayers t fixture cid).filter
          (fun p => !(decide (p._id ∈ (subResultOf t fixture cid).toBeSub))) ++
        (eligibleSubstitutes t.substitutes fixture).filter
          (fun p => decide (p._id ∈ (subResultOf t fixture cid).subsIds)) := by
  simp only [finalLineup]
  rw [if_neg (by simp [hne]), hnone]

/-- C4 (amended): if a captain substitution occurred then every final
player's flag is the comparison with the substitute's id (so exactly the
substitute's id carries it) and the substitute is in the final line-up;
otherwise, provided the fixture statistics carry no captain flags and the
resolved captain is not a bench id, every final player's flag is the
comparison with the resolved captain id (substitutes brought in otherwise
retain the flag of their fixture entry). -/
theorem captain_flag_final (t : Team) (fixture : List Player) (cid : Nat) :
    (∀ c : Nat, (subResultOf t fixture cid).capSubId = some c →
      (∀ p ∈ finalLineup t fixture cid, p.captain = decide (p._id = c)) ∧
        ∃ p ∈ finalLineup t fixture cid, p._id = c) ∧
    ((∀ p ∈ fixture, p.captain = false) →
      (∀ b ∈ t.substitutes, b._id ≠ cid) →
      (subResultOf t fixture cid).capSubId = none →
      ∀ p ∈ finalLineup t fixture cid, p.captain = decide (p._id = cid)) := by
  constructor
  · intro c hcap
    cases hne : (eligibleSubstitutes t.substitutes fixture).isEmpty with
    | true =>
      exfalso
      have hsub : eligibleSubstitutes t.substitutes fixture = [] :=
        List.isEmpty_iff.mp hne
      rw [subResultOf, hsub, subResult_nil] at hcap
      simp at hcap
    | false =>
      rw [finalLineup_of_cap hne hcap]
      constructor
      · intro p hp
        obtain ⟨x, hx, rfl⟩ := List.mem_map.mp hp
        rfl
      · have hc1 : c ∈ (subResultOf t fixture cid).subsIds := by
          rcases subLoop_cap_from (eligibleSubstitutes t.substitutes fixture)
            (candidatesFor t fixture cid) ⟨[], [], none⟩ c hcap with h1 | h1
          · simp at h1
          · exact h1
        obtain ⟨q, hqmem, hqid⟩ :
            ∃ q ∈ eligibleSubstitutes t.substitutes fixture, q._id = c := by
          rcases subLoop_subsIds_from (eligibleSubstitutes t.substitutes fixture)
            (candidatesFor t fixture cid) ⟨[], [], none⟩ c hc1 with h2 | h2
          · simp at h2
          · exact h2
        refine ⟨{ q with captain := decide (q._id = c) }, ?_, hqid⟩
        apply List.mem_map_of_mem
        apply List.mem_append_right
        exact List.mem_filter.mpr ⟨hqmem, by simp [hqid, hc1]⟩
  · intro hflags hdisj hnone p hp
    cases hne : (eligibleSubstitutes t.substitutes fixture).isEmpty with
    | true =>
      rw [finalLineup_of_empty hne] at hp
      exact (mem_playingPlayers hp).1
    | false =>
      rw [finalLineup_of_nocap hne hnone] at hp
      rcases List.mem_append.mp hp with h1 | h1
      · exact (mem_playingPlayers (List.mem_of_mem_filter h1)).1
      · have h2 := List.mem_of_mem_filter h1
        obtain ⟨hfix, _, b, hb, hid⟩ := eligibleSubstitutes_mem h2
        rw [hflags p hfix]
        have hpid : p._id ≠ cid := hid ▸ hdisj b hb
        simp [hpid]

/-- Roster/bench for the C4 witness, captain-substitution scenario: captain
forward id 1, forward id 3, bench forward id 2. -/
def teamW4a : Team :=
  ⟨[⟨1, .forward, 0, true⟩, ⟨3, .forward, 0, false⟩],
    [⟨2, .forward, 0, false⟩], ⟨1, 4, 4, 2⟩⟩

/-- Fixture for the C4 witness, captain-substitution scenario: the captain
scores zero and the bench forward scored. -/
def fixtureW4a : List Player :=
  [⟨1, .forward, 0, false⟩, ⟨3, .forward, 5, false⟩, ⟨2, .forward, 4, false⟩]

/-- Team for the C4 witness, no-captain-substitution scenario. -/
def teamW4b : Team :=
  ⟨[⟨1, .forward, 0, true⟩, ⟨3, .forward, 0, false⟩],
    [⟨2, .forward, 0, false⟩], ⟨1, 4, 4, 2⟩⟩

/-- Fixture for the C4 witness, no-captain-substitution scenario: the
captain scored, the other forward is substituted, no fixture captain
flags. -/
def fixtureW4b : List Player :=
  [⟨1, .forward, 2, false⟩, ⟨3, .forward, 0, false⟩, ⟨2, .forward, 4, false⟩]

/-- C4 witness: both branches applied to concrete scoring calls: after the
captain (id 1) is substituted by the bench forward (id 2), exactly id 2
carries the flag; with the captain staying in, exactly id 1 carries it. -/
theorem captain_flag_final_witness :
    ((∀ p ∈ finalLineup teamW4a fixtureW4a 1, p.captain = decide (p._id = 2)) ∧
      ∃ p ∈ finalLineup teamW4a fixtureW4a 1, p._id = 2) ∧
    (∀ p ∈ finalLineup teamW4b fixtureW4b 1, p.captain = decide (p._id = 1)) :=
  ⟨(captain_flag_final teamW4a fixtureW4a 1).1 2 (by decide),
   (captain_flag_final teamW4b fixtureW4b 1).2 (by decide) (by decide)
     (by decide)⟩

/-- Team for the C4 counterexample. -/
def teamW4c : Team :=
  ⟨[⟨1, .forward, 0, true⟩, ⟨3, .forward, 0, false⟩],
    [⟨2, .forward, 0, false⟩], ⟨1, 4, 4, 2⟩⟩

/-- Fixture for the C4 counterexample: the incoming bench forward's fixture
entry carries a captain flag. -/
def fixtureW4c : List Player :=
  [⟨1, .forward, 2, false⟩, ⟨3, .forward, 0, false⟩, ⟨2, .forward, 4, true⟩]

/-- C4 (counterexample): no captain substitution occurred and the resolved
captain is id 1, yet the final line-up does not carry the flag on exactly
the resolved captain: the substitute brought in keeps the captain flag of
its fixture entry. -/
theorem captain_flag_not_from_roster_alone :
    (subResultOf teamW4c fixtureW4c 1).capSubId = none ∧
      resolveCaptain teamW4c.players 0 = some 1 ∧
      ¬ (∀ p ∈ finalLineup teamW4c fixtureW4c 1,
          p.captain = decide (p._id = 1)) :=
  ⟨by decide, rfl, by decide⟩

/-- C10 (amended): when the resolved captain's id has no fixture entry (and
the fixture carries no captain flags), the captain is absent from the
playing set, no captain transfer is recorded, and the returned total is the
home bonus plus the plain (undoubled) sum of the final line-up's points. -/
theorem absent_captain_no_double (t : Team) (fixture : List Player)
    (cid : Nat) (pick : Nat) (is_away : Bool)
    (hres : resolveCaptain t.players pick = some cid)
    (habs : ∀ p ∈ fixture, p._id ≠ cid)
    (hflags : ∀ p ∈ fixture, p.captain = false) :
    (∀ p ∈ playingPlayers t fixture cid, p._id ≠ cid) ∧
    (subResultOf t fixture cid).capSubId = none ∧
    t.points fixture is_away pick =
      some (round2 ((if is_away then 0 else 6) +
        ((finalLineup t fixture cid).map Player.points).sum)) := by
  have hplay : ∀ p ∈ playingPlayers t fixture cid, p._id ≠ cid := by
    intro p hp
    obtain ⟨_, x, hx, rfl⟩ := mem_playingPlayers hp
    exact habs x hx
  have hflag_play : ∀ p ∈ playingPlayers t fixture cid, p.captain = false := by
    intro p hp
    rw [(mem_playingPlayers hp).1]
    simp [hplay p hp]
  have hcands : ∀ cand ∈ candidatesFor t fixture cid,
      cand.captain = false := by
    intro cand hc
    exact hflag_play cand (List.mem_of_mem_filter hc)
  have hnone : (subResultOf t fixture cid).capSubId = none := by
    rw [subResultOf, subResult]
    rw [subLoop_cap_none _ _ _ hcands]
  have hfinal_flags : ∀ p ∈ finalLineup t fixture cid,
      p.captain = false := by
    intro p hp
    cases hne : (eligibleSubstitutes t.substitutes fixture).isEmpty with
    | true =>
      rw [finalLineup_of_empty hne] at hp
      exact hflag_play p hp
    | false =>
      rw [finalLineup_of_nocap hne hnone] at hp
      rcases List.mem_append.mp hp with h1 | h1
      · exact hflag_play _ (List.mem_of_mem_filter h1)
      · exact hflags _ (eligibleSubstitutes_mem (List.mem_of_mem_filter h1)).1
  refine ⟨hplay, hnone, ?_⟩
  rw [Team.points, hres, Option.map_some', pointsCore, foldl_weight_eq_sum]
  have hmap : (finalLineup t fixture cid).map
      (fun p => if p.captain then 2 * p.points else p.points) =
      (finalLineup t fixture cid).map Player.points := by
    apply List.map_congr_left
    intro a ha
    rw [hfinal_flags a ha]
    simp
  rw [hmap]

/-- Team for the C10 witness: captain forward id 1, forward id 3, bench
forward id 2. -/
def teamWA : Team :=
  ⟨[⟨1, .forward, 0, true⟩, ⟨3, .forward, 0, false⟩],
    [⟨2, .forward, 0, false⟩], ⟨1, 4, 4, 2⟩⟩

/-- Fixture for the C10 witness: no entry for the captain id 1, no fixture
captain flags. -/
def fixtureWA : List Player :=
  [⟨3, .forward, 0, false⟩, ⟨2, .forward, 3, false⟩]

/-- C10 witness: the absent-captain behaviour at a concrete away fixture. -/
theorem absent_captain_no_double_witness :
    (∀ p ∈ playingPlayers teamWA fixtureWA 1, p._id ≠ 1) ∧
    (subResultOf teamWA fixtureWA 1).capSubId = none ∧
    teamWA.points fixtureWA true 0 =
      some (round2 ((if true then 0 else 6) +
        ((finalLineup teamWA fixtureWA 1).map Player.points).sum)) :=
  absent_captain_no_double teamWA fixtureWA 1 0 true (by decide) (by decide)
    (by decide)

/-- Team for the C10 counterexample. -/
def teamWB : Team :=
  ⟨[⟨1, .forward, 0, true⟩, ⟨3, .forward, 0, false⟩],
    [⟨2, .forward, 0, false⟩], ⟨1, 4, 4, 2⟩⟩

/-- Fixture for the C10 counterexample: no entry for the captain id 1, but
the incoming bench forward's entry carries a captain flag. -/
def fixtureWB : List Player :=
  [⟨3, .forward, 0, false⟩, ⟨2, .forward, 3, true⟩]

/-- C10 (counterexample): the resolved captain (id 1) is absent from the
fixture, yet the returned total is not the plain undoubled sum: the bench
forward's fixture captain flag doubles its points (6 instead of 3). -/
theorem absent_captain_bonus_not_gone :
    resolveCaptain teamWB.players 0 = some 1 ∧
      (∀ p ∈ fixtureWB, p._id ≠ 1) ∧
      teamWB.points fixtureWB true 0 ≠
        some (round2 ((0:ℚ) +
          ((finalLineup teamWB fixtureWB 1).map Player.points).sum)) := by
  refine ⟨rfl, by decide, ?_⟩
  have h2 : finalLineup teamWB fixtureWB 1 = [⟨2, .forward, 3, true⟩] := by
    decide
  rw [Team.points, show resolveCaptain teamWB.players 0 = some 1 from rfl,
    Option.map_some', pointsCore, h2]
  simp only [List.foldl, List.map, List.sum_cons, List.sum_nil]
  norm_num [round2, roundHalfEven]
